import Mathlib

/-!
Verification of the CardENV page/state engine (`src/main.cpp`).

The C++ source is shallowly embedded: `float` values become `ℚ`, C `int`
becomes `Int` (or `Nat` where the source only ever holds non-negative
values), `unsigned long` millisecond clocks become `Nat` holding the true
(unwrapped) time, with 32-bit unsigned subtraction modelled explicitly by
`elapsedMs`.  C's truncating `%` and `/` on `int`/`long` are modelled by
`Int.tmod` / `Int.tdiv`, and the C cast `(int)` of a float by `cIntCast`.
Drawing calls become values of the `Op` type (the "Display Surface"
intents of the spec); text is emitted as the value to be formatted plus
its format, since string formatting itself is done by the external
`sprintf`/display library.
-/

namespace CardEnv

/-! ### Global constants of the source -/

def historySize : Nat := 60

def historyInterval : Nat := 60000

def displayInterval : Nat := 1000

def flashInterval : Nat := 500

def screenW : Int := 240

def screenH : Int := 135

def boxWidth : Int := 72

def boxHeight : Int := 85

def boxMargin : Int := 6

def boxRadius : Int := 8

def boxBorderWidth : Int := 2

def topMargin : Int := 22

/-- 2^32, the modulus of `unsigned long` millisecond arithmetic. -/
def U32 : Nat := 4294967296

/-- `now - last` computed in 32-bit unsigned arithmetic, as the source does
for all of its elapsed-time checks (`now` and `last` are true times here;
the hardware stores them mod 2^32, and unsigned subtraction recovers the
true difference mod 2^32). -/
def elapsedMs (now last : Nat) : Nat :=
  (((now : Int) - (last : Int)) % (U32 : Int)).toNat

/-! ### History Ring Buffer

`updateHistory` (main.cpp:699-710) appends one sample per metric into three
parallel 60-entry arrays sharing one write cursor `historyIndex` and one
fill counter `historyCount`.  `HistRing` is that structure for a single
metric; the logical read order is the index pattern used by
`drawGraphPageStatic` (main.cpp:381-391, 420-434):
`(historyIndex - historyCount + i + historySize) % historySize`. -/

structure HistRing where
  data : Nat → ℚ
  idx : Nat
  count : Nat

def HistRing.empty : HistRing := ⟨fun _ => 0, 0, 0⟩

/-- One append, exactly the ring mutation of `updateHistory`:
write at the cursor, advance the cursor modulo 60, bump the count up to
the ceiling 60. -/
def HistRing.append (r : HistRing) (v : ℚ) : HistRing where
  data := fun j => if j = r.idx then v else r.data j
  idx := (r.idx + 1) % historySize
  count := if r.count < historySize then r.count + 1 else r.count

/-- The read index `(historyIndex - historyCount + i + historySize) %
historySize` computed, as in the C source, in `int` arithmetic (truncating
`%`). -/
def ringReadIdx (idx count i : Nat) : Nat :=
  (Int.tmod ((idx : Int) - (count : Int) + (i : Int) + (historySize : Int))
    (historySize : Int)).toNat

/-- The ordered (oldest-first) read of the buffer, as traversed by the
graph renderer's loops. -/
def HistRing.readOrdered (r : HistRing) : List ℚ :=
  (List.range r.count).map fun i => r.data (ringReadIdx r.idx r.count i)

/-- The structural invariant of the ring. -/
def histInv (r : HistRing) : Prop :=
  r.idx < historySize ∧ r.count ≤ historySize

def appendAll (r : HistRing) (vs : List ℚ) : HistRing :=
  vs.foldl HistRing.append r

/-! ### Colors (16-bit RGB565 constants of the source) -/

def TFT_BLACK : Nat := 0x0000

def TFT_GREEN : Nat := 0x07E0

def TFT_YELLOW : Nat := 0xFFE0

def TFT_RED : Nat := 0xF800

def TFT_WHITE : Nat := 0xFFFF

def TFT_DARKGREY : Nat := 0x7BEF

def COLOR_TEMP : Nat := 0xFD20

def COLOR_HUMIDITY : Nat := 0x07FF

def COLOR_PRESSURE : Nat := 0xD01F

/-! ### C arithmetic helpers -/

/-- C `if (q < 0) q = -q` absolute value, as computed in
`updateSingleBoxValue` / `updateGraphValue`. -/
def cAbs (q : ℚ) : ℚ := if q < 0 then -q else q

/-- C truncating integer division (`/` on `int`/`long`). -/
def cDiv (a b : Int) : Int := Int.tdiv a b

/-- The C cast `(int)` of a float: truncation toward zero. -/
def cIntCast (q : ℚ) : Int := Int.tdiv q.num (q.den : Int)

/-- Arduino's `map` (long integer arithmetic). -/
def arduinoMap (x inMin inMax outMin outMax : Int) : Int :=
  cDiv ((x - inMin) * (outMax - outMin)) (inMax - inMin) + outMin

/-- The `0.05` change-detection threshold of the incremental redraws. -/
def displayEpsilon : ℚ := 1 / 20

/-- Celsius→Fahrenheit, `(tempC * 9.0 / 5.0) + 32.0`. -/
def cToF (tempC : ℚ) : ℚ := tempC * 9 / 5 + 32

/-- `getDisplayTemp` (main.cpp:128-133). -/
def getDisplayTemp (useFahrenheit : Bool) (tempC : ℚ) : ℚ :=
  if useFahrenheit then cToF tempC else tempC

/-! ### Display-surface intents

Text is drawn by the source through `sprintf` + cursor positioning; the
embedding emits the value to be formatted together with its format
(number of decimals / unit suffix), and keeps the source's centred-text
helpers as centring intents (their pixel `x` depends only on the final
formatted string width, computed by the external text library). -/

inductive TitleLabel where
  | temperatureTitle
  | humidityTitle
  | pressureTitle
  deriving DecidableEq

/-- `strlen(title)` for the three graph-page titles
("TEMPERATURE", "HUMIDITY", "PRESSURE"). -/
def titleLen : TitleLabel → Nat
  | .temperatureTitle => 11
  | .humidityTitle => 8
  | .pressureTitle => 8

inductive UnitLabel where
  | celsius
  | fahrenheit
  | percent
  | hectopascal
  deriving DecidableEq

/-- `getTempUnit` (main.cpp:135-137). -/
def getTempUnit (useFahrenheit : Bool) : UnitLabel :=
  if useFahrenheit then .fahrenheit else .celsius

/-- The fixed string literals drawn by the source. -/
inductive LitLabel where
  | lblMinus1hr
  | lblNow
  | lblEscBack
  | lblCollecting
  | lblSettingsTitle
  | lblBrightness
  | lblTempUnit
  | lblTimeout
  | lblC
  | lblF
  | lbl10s
  | lbl30s
  | lblOff
  | lblEscChange
  deriving DecidableEq

inductive Content where
  | lit (l : LitLabel)
  | title (t : TitleLabel)
  | num (q : ℚ) (decimals : Nat)
  | numUnit (q : ℚ) (u : UnitLabel)
  | unitLbl (u : UnitLabel)
  | pctInt (n : Int)
  deriving DecidableEq

inductive Op where
  | setBrightness (b : Int)
  | fillScreen (c : Nat)
  | fillRect (x y w h : Int) (c : Nat)
  | drawRect (x y w h : Int) (c : Nat)
  | drawRoundRect (x y w h r : Int) (c : Nat)
  | fillRoundRect (x y w h r : Int) (c : Nat)
  | fillCircle (x y r : Int) (c : Nat)
  | drawLine (x1 y1 x2 y2 : Int) (c : Nat)
  | fillTriangle (x1 y1 x2 y2 x3 y3 : Int) (c : Nat)
  | textAt (x y : Int) (size : Nat) (c : Nat) (t : Content)
  | centeredText (y : Int) (size : Nat) (c : Nat) (t : Content)
  | centeredTextInBox (boxX boxW y : Int) (size : Nat) (c : Nat) (t : Content)
  deriving DecidableEq

/-! ### Program state

All mutable globals of main.cpp, plus `brightness`: the display surface's
current backlight level (set only through `setBrightness` calls). -/

inductive ScreenState where
  | on
  | off
  deriving DecidableEq

structure St where
  temperature : ℚ
  humidity : ℚ
  pressure : ℚ
  dispTemp : ℚ
  dispHumidity : ℚ
  dispPressure : ℚ
  tempHistory : Nat → ℚ
  humidityHistory : Nat → ℚ
  pressureHistory : Nat → ℚ
  historyIndex : Nat
  historyCount : Nat
  lastHistoryUpdate : Nat
  currentPage : Nat
  lastActivityTime : Nat
  normalBrightness : Int
  screenState : ScreenState
  lastDisplayUpdate : Nat
  batteryFlashOn : Bool
  lastFlashTime : Nat
  prevBatteryLevel : Int
  prevCharging : Bool
  needsFullRedraw : Bool
  graphDispValue : ℚ
  useFahrenheit : Bool
  screenTimeoutOption : Int
  settingsSelection : Int
  brightness : Int

/-- `screenTimeoutValues[] = {10000, 30000, 0}` (main.cpp:89). -/
def screenTimeoutValues : List Nat := [10000, 30000, 0]

/-! ### Layout constants computed in `setup` (main.cpp:726-731); the
Cardputer display is fixed 240x135 (main.cpp:38).  All divisions here are
of non-negative values, where C and Lean integer division agree. -/

def totalWidth : Int := boxWidth * 3 + boxMargin * 2

def startX : Int := (screenW - totalWidth) / 2

def tempBoxX : Int := startX

def humidBoxX : Int := startX + boxWidth + boxMargin

def pressBoxX : Int := startX + (boxWidth + boxMargin) * 2

def boxY : Int := topMargin + (screenH - topMargin - boxHeight) / 2

/-! ### Screen timeout management (main.cpp:257-283) -/

/-- `updateScreenTimeout` (main.cpp:257-273). -/
def updateScreenTimeout (s : St) (now : Nat) : St × List Op :=
  let timeoutDuration := (screenTimeoutValues.get? s.screenTimeoutOption.toNat).getD 0
  if timeoutDuration = 0 then (s, [])
  else
    let elapsed := elapsedMs now s.lastActivityTime
    if s.screenState = ScreenState.on ∧ timeoutDuration ≤ elapsed then
      ({ s with brightness := 0, screenState := ScreenState.off }, [Op.setBrightness 0])
    else (s, [])

/-- `wakeScreen` (main.cpp:275-283). -/
def wakeScreen (s : St) (now : Nat) : St × List Op :=
  let s1 := { s with lastActivityTime := now }
  if s1.screenState ≠ ScreenState.on then
    ({ s1 with
        brightness := s1.normalBrightness
        screenState := ScreenState.on
        needsFullRedraw := true },
      [Op.setBrightness s1.normalBrightness])
  else (s1, [])

/-! ### Icon and battery drawing (main.cpp:144-251) -/

def drawThermometerIcon (cx cy : Int) (color : Nat) : List Op :=
  [.fillCircle cx (cy + 8) 6 color,
   .fillRoundRect (cx - 3) (cy - 10) 6 18 2 color,
   .fillCircle cx (cy + 8) 3 TFT_BLACK,
   .fillRect (cx - 1) (cy - 6) 2 12 TFT_BLACK,
   .fillCircle cx (cy + 8) 2 color,
   .fillRect (cx - 1) (cy - 2) 2 10 color]

def drawDropletIcon (cx cy : Int) (color : Nat) : List Op :=
  [.fillCircle cx (cy + 4) 7 color,
   .fillTriangle cx (cy - 12) (cx - 7) (cy + 2) (cx + 7) (cy + 2) color,
   .fillCircle (cx - 2) (cy + 2) 2 TFT_WHITE]

def drawBarometerIcon (cx cy : Int) (color : Nat) : List Op :=
  [.fillCircle cx cy 10 color,
   .fillCircle cx cy 7 TFT_BLACK,
   .drawLine (cx - 6) cy (cx - 4) cy color,
   .drawLine (cx + 4) cy (cx + 6) cy color,
   .drawLine cx (cy - 6) cx (cy - 4) color,
   .drawLine cx cy (cx + 4) (cy - 4) color,
   .drawLine cx cy (cx + 5) (cy - 3) color,
   .fillCircle cx cy 2 color]

def drawThickRoundRect (x y w h radius thickness : Int) (color : Nat) : List Op :=
  (List.range thickness.toNat).map fun i =>
    .drawRoundRect (x + i) (y + i) (w - (i : Int) * 2) (h - (i : Int) * 2) radius color

def getBatteryColor (level : Int) (isCharging : Bool) : Nat :=
  if isCharging then TFT_GREEN
  else if 70 < level then TFT_GREEN
  else if 30 < level then TFT_YELLOW
  else TFT_RED

def drawLightningBolt (x y : Int) (color : Nat) : List Op :=
  [.drawLine (x + 4) y (x + 1) (y + 4) color,
   .drawLine (x + 1) (y + 4) (x + 3) (y + 4) color,
   .drawLine (x + 3) (y + 4) x (y + 8) color,
   .drawLine (x + 5) y (x + 2) (y + 4) color,
   .drawLine (x + 4) (y + 4) (x + 1) (y + 8) color]

/-- `drawBattery` (main.cpp:206-251). -/
def drawBattery (s : St) (forceRedraw : Bool) (batteryLevel : Int) (isCharging : Bool)
    (now : Nat) : St × List Op :=
  let fl :=
    if batteryLevel ≤ 10 ∧ ¬ isCharging then
      if flashInterval ≤ elapsedMs now s.lastFlashTime then
        ({ s with lastFlashTime := now, batteryFlashOn := ¬ s.batteryFlashOn }, true)
      else (s, forceRedraw)
    else ({ s with batteryFlashOn := true }, forceRedraw)
  let s1 := fl.1
  if ¬ fl.2 ∧ batteryLevel = s1.prevBatteryLevel ∧ isCharging = s1.prevCharging then
    (s1, [])
  else
    let s2 := { s1 with prevBatteryLevel := batteryLevel, prevCharging := isCharging }
    let battX := screenW - 55
    let battY : Int := 3
    let clearOps := [Op.fillRect (battX - 3) (battY - 1) 58 14 TFT_BLACK]
    if ¬ s2.batteryFlashOn then (s2, clearOps)
    else
      let battColor := getBatteryColor batteryLevel isCharging
      let battW : Int := 22
      let battH : Int := 10
      let fillW := arduinoMap batteryLevel 0 100 0 (battW - 4)
      (s2, clearOps ++
        [Op.drawRect battX battY battW battH battColor,
         Op.fillRect (battX + battW) (battY + 2) 2 6 battColor] ++
        (if 0 < fillW then
          [Op.fillRect (battX + 2) (battY + 2) fillW (battH - 4) battColor]
         else []) ++
        (if isCharging then drawLightningBolt (battX + 6) (battY + 1) TFT_BLACK else []) ++
        [Op.textAt (battX + 26) (battY + 1) 1 battColor (Content.pctInt batteryLevel)])

/-! ### Main page (main.cpp:289-338) -/

/-- `drawMainPageStatic` (main.cpp:289-309): static chrome, then the
display caches are reset to the -999 sentinel to force a value redraw. -/
def drawMainPageStatic (s : St) (batteryLevel : Int) (isCharging : Bool) (now : Nat) :
    St × List Op :=
  let bt := drawBattery s true batteryLevel isCharging now
  ({ bt.1 with dispTemp := -999, dispHumidity := -999, dispPressure := -999 },
    [Op.fillScreen TFT_BLACK] ++ bt.2 ++
    drawThickRoundRect tempBoxX boxY boxWidth boxHeight boxRadius boxBorderWidth COLOR_TEMP ++
    drawThermometerIcon (tempBoxX + boxWidth / 2) (boxY + 22) COLOR_TEMP ++
    drawThickRoundRect humidBoxX boxY boxWidth boxHeight boxRadius boxBorderWidth COLOR_HUMIDITY ++
    drawDropletIcon (humidBoxX + boxWidth / 2) (boxY + 22) COLOR_HUMIDITY ++
    drawThickRoundRect pressBoxX boxY boxWidth boxHeight boxRadius boxBorderWidth COLOR_PRESSURE ++
    drawBarometerIcon (pressBoxX + boxWidth / 2) (boxY + 22) COLOR_PRESSURE)

/-- `updateSingleBoxValue` (main.cpp:311-331).  Returns the new cached
display value (the by-reference `dispValue`) and the emitted draw calls;
`decimals` stands for the `format` argument ("%.1f" / "%.0f"). -/
def updateSingleBoxValue (boxX : Int) (value dispValue : ℚ) (color : Nat)
    (decimals : Nat) (u : UnitLabel) : ℚ × List Op :=
  let diff := cAbs (value - dispValue)
  if diff < displayEpsilon then (dispValue, [])
  else
    let valueY := boxY + 45
    let unitY := boxY + 68
    let clearX := boxX + boxBorderWidth + 2
    let clearW := boxWidth - boxBorderWidth * 2 - 4
    (value,
      [Op.fillRect clearX (valueY - 2) clearW 35 TFT_BLACK,
       Op.centeredTextInBox boxX boxWidth valueY 2 color (Content.num value decimals),
       Op.centeredTextInBox boxX boxWidth unitY 1 color (Content.unitLbl u)])

/-- `updateMainPageValues` (main.cpp:333-338). -/
def updateMainPageValues (s : St) (batteryLevel : Int) (isCharging : Bool) (now : Nat) :
    St × List Op :=
  let t := updateSingleBoxValue tempBoxX (getDisplayTemp s.useFahrenheit s.temperature)
    s.dispTemp COLOR_TEMP 1 (getTempUnit s.useFahrenheit)
  let h := updateSingleBoxValue humidBoxX s.humidity s.dispHumidity COLOR_HUMIDITY 0 .percent
  let p := updateSingleBoxValue pressBoxX s.pressure s.dispPressure COLOR_PRESSURE 0 .hectopascal
  let s1 := { s with dispTemp := t.1, dispHumidity := h.1, dispPressure := p.1 }
  let bt := drawBattery s1 false batteryLevel isCharging now
  (bt.1, t.2 ++ h.2 ++ p.2 ++ bt.2)

/-! ### Graph page (main.cpp:344-464) -/

/-- The single min/max fold of `drawGraphPageStatic` (main.cpp:385-391):
`if (val < graphMin) graphMin = val; if (val > graphMax) graphMax = val`. -/
def foldMinMax (vals : List ℚ) (first : ℚ) : ℚ × ℚ :=
  vals.foldl (fun p val =>
    (if val < p.1 then val else p.1, if p.2 < val then val else p.2)) (first, first)

/-- The padding step of the Graph Scaler (main.cpp:393-405); returns
`(graphMin, graphMax, range)` after padding.  `0.1` is the exact rational
1/10 in this model. -/
def padBounds (graphMin graphMax : ℚ) : ℚ × ℚ × ℚ :=
  let range := graphMax - graphMin
  if range < 2 then
    let mid := (graphMax + graphMin) / 2
    (mid - 1, mid + 1, 2)
  else
    let padding := range * (1 / 10)
    let gmin := graphMin - padding
    let gmax := graphMax + padding
    (gmin, gmax, gmax - gmin)

/-- The polyline emission of main.cpp:420-434: a 1-px marker at each point
and a line segment from the previous point for `i > 0`. -/
def polylineOps (pts : List (Int × Int)) (color : Nat) : List Op :=
  (pts.foldl (fun (acc : List Op × Option (Int × Int)) p =>
      (acc.1 ++ [Op.fillCircle p.1 p.2 1 color] ++
        (match acc.2 with
         | some q => [Op.drawLine q.1 q.2 p.1 p.2 color]
         | none => []), some p)) ([], none)).1

/-- `drawGraphPageStatic` (main.cpp:344-442). -/
def drawGraphPageStatic (s : St) (title : TitleLabel) (history : Nat → ℚ) (color : Nat)
    (u : UnitLabel) (currentVal : ℚ) (convertToF : Bool)
    (batteryLevel : Int) (isCharging : Bool) (now : Nat) : St × List Op :=
  let bt := drawBattery s true batteryLevel isCharging now
  let graphX : Int := 30
  let graphY : Int := 18
  let graphW : Int := screenW - 35
  let graphH : Int := screenH - 45
  let headerOps :=
    [Op.fillScreen TFT_BLACK] ++ bt.2 ++
    [Op.textAt 5 5 1 color (Content.title title),
     Op.textAt (5 + (titleLen title : Int) * 6 + 10) 5 1 color (Content.numUnit currentVal u),
     Op.drawRect graphX graphY graphW graphH TFT_DARKGREY,
     Op.textAt graphX (graphY + graphH + 3) 1 TFT_DARKGREY (Content.lit .lblMinus1hr),
     Op.textAt (graphX + graphW - 18) (graphY + graphH + 3) 1 TFT_DARKGREY (Content.lit .lblNow),
     Op.textAt 5 (screenH - 10) 1 TFT_DARKGREY (Content.lit .lblEscBack)]
  let bodyOps :=
    if 1 < s.historyCount then
      let conv := fun v => if convertToF then cToF v else v
      let firstVal := conv (history (ringReadIdx s.historyIndex s.historyCount 0))
      let vals := (List.range s.historyCount).map fun i =>
        conv (history (ringReadIdx s.historyIndex s.historyCount i))
      let mm := foldMinMax vals firstVal
      let b := padBounds mm.1 mm.2
      let graphMin := b.1
      let range := b.2.2
      let pts := (List.range s.historyCount).map fun i =>
        let val := conv (history (ringReadIdx s.historyIndex s.historyCount i))
        (graphX + 2 + cDiv ((i : Int) * (graphW - 4)) ((historySize : Int) - 1),
         graphY + graphH - 2 - cIntCast ((val - graphMin) / range * ((graphH - 4 : Int) : ℚ)))
      [Op.textAt 2 graphY 1 TFT_DARKGREY (Content.num b.2.1 0),
       Op.textAt 2 (graphY + graphH - 8) 1 TFT_DARKGREY (Content.num graphMin 0)] ++
      polylineOps pts color
    else
      [Op.centeredText (graphY + graphH / 2 - 8) 1 TFT_DARKGREY (Content.lit .lblCollecting)]
  ({ bt.1 with graphDispValue := -999 }, headerOps ++ bodyOps)

/-- `updateGraphValue` (main.cpp:444-464).  Returns the new
`graphDispValue` cache and the emitted draw calls. -/
def updateGraphValue (value graphDispValue : ℚ) (color : Nat) (u : UnitLabel)
    (title : TitleLabel) : ℚ × List Op :=
  let diff := cAbs (value - graphDispValue)
  if diff < displayEpsilon then (graphDispValue, [])
  else
    let valX := 5 + (titleLen title : Int) * 6 + 10
    (value,
      [Op.fillRect valX 3 70 12 TFT_BLACK,
       Op.textAt valX 5 1 color (Content.numUnit value u)])

/-! ### Settings page (main.cpp:470-573) -/

def timeoutLabel : Nat → LitLabel
  | 0 => .lbl10s
  | 1 => .lbl30s
  | _ => .lblOff

/-- `drawSettingsPageStatic` (main.cpp:470-573). -/
def drawSettingsPageStatic (s : St) (batteryLevel : Int) (isCharging : Bool) (now : Nat) :
    St × List Op :=
  let bt := drawBattery s true batteryLevel isCharging now
  let itemY1 : Int := 35
  let itemHeight : Int := 35
  let brightColor := if s.settingsSelection = 0 then TFT_YELLOW else TFT_WHITE
  let barX : Int := 90
  let barY := itemY1 + 3
  let barW : Int := 100
  let barH : Int := 12
  let fillW := arduinoMap s.normalBrightness 20 100 0 (barW - 4)
  let itemY2 := itemY1 + itemHeight
  let unitColor := if s.settingsSelection = 1 then TFT_YELLOW else TFT_WHITE
  let toggleX : Int := 90
  let toggleY := itemY2 + 2
  let itemY3 := itemY2 + itemHeight
  let timeoutColor := if s.settingsSelection = 2 then TFT_YELLOW else TFT_WHITE
  let optX : Int := 90
  let optY := itemY3 + 2
  (bt.1,
    [Op.fillScreen TFT_BLACK] ++ bt.2 ++
    [Op.centeredText 5 2 TFT_WHITE (Content.lit .lblSettingsTitle)] ++
    (if s.settingsSelection = 0 then
      [Op.fillRoundRect 10 (itemY1 - 3) (screenW - 20) (itemHeight - 2) 5 0x2104]
     else []) ++
    [Op.textAt 20 (itemY1 + 5) 1 brightColor (Content.lit .lblBrightness),
     Op.drawRect barX barY barW barH brightColor,
     Op.fillRect (barX + 2) (barY + 2) fillW (barH - 4) brightColor,
     Op.textAt (barX + barW + 8) (itemY1 + 5) 1 brightColor (Content.pctInt s.normalBrightness)] ++
    (if s.settingsSelection = 1 then
      [Op.fillRoundRect 10 (itemY2 - 3) (screenW - 20) (itemHeight - 2) 5 0x2104]
     else []) ++
    [Op.textAt 20 (itemY2 + 5) 1 unitColor (Content.lit .lblTempUnit)] ++
    (if ¬ s.useFahrenheit then
      [Op.fillRoundRect toggleX toggleY 40 14 3 unitColor,
       Op.textAt (toggleX + 10) (toggleY + 3) 1 TFT_BLACK (Content.lit .lblC)]
     else
      [Op.drawRoundRect toggleX toggleY 40 14 3 unitColor,
       Op.textAt (toggleX + 10) (toggleY + 3) 1 unitColor (Content.lit .lblC)]) ++
    (if s.useFahrenheit then
      [Op.fillRoundRect (toggleX + 45) toggleY 40 14 3 unitColor,
       Op.textAt (toggleX + 55) (toggleY + 3) 1 TFT_BLACK (Content.lit .lblF)]
     else
      [Op.drawRoundRect (toggleX + 45) toggleY 40 14 3 unitColor,
       Op.textAt (toggleX + 55) (toggleY + 3) 1 unitColor (Content.lit .lblF)]) ++
    (if s.settingsSelection = 2 then
      [Op.fillRoundRect 10 (itemY3 - 3) (screenW - 20) (itemHeight - 2) 5 0x2104]
     else []) ++
    [Op.textAt 20 (itemY3 + 5) 1 timeoutColor (Content.lit .lblTimeout)] ++
    ((List.range 3).foldl (fun acc (i : Nat) =>
      let btnX := optX + (i : Int) * 35
      acc ++
      (if s.screenTimeoutOption = (i : Int) then
        [Op.fillRoundRect btnX optY 32 14 3 timeoutColor,
         Op.textAt (btnX + 6) (optY + 3) 1 TFT_BLACK (Content.lit (timeoutLabel i))]
       else
        [Op.drawRoundRect btnX optY 32 14 3 timeoutColor,
         Op.textAt (btnX + 6) (optY + 3) 1 timeoutColor (Content.lit (timeoutLabel i))])) []) ++
    [Op.textAt 5 (screenH - 10) 1 TFT_DARKGREY (Content.lit .lblEscChange)])

/-! ### Keyboard handling (main.cpp:579-693) -/

/-- The per-letter uppercase conversion (main.cpp:598-601). -/
def toUpperC (c : Char) : Char :=
  if 'a' ≤ c ∧ c ≤ 'z' then Char.ofNat (c.toNat - 32) else c

/-- The interpretation of one key of `status.word` (main.cpp:593-690),
threading the accumulated state and emitted ops.  ESC is backtick
(code 96), '~', or raw 27. -/
def handleKey (sp : St × List Op) (c : Char) : St × List Op :=
  let s := sp.1
  let upperC := toUpperC c
  if c.toNat = 96 ∨ c = '~' ∨ c.toNat = 27 then
    if s.currentPage ≠ 0 then
      ({ s with currentPage := 0, needsFullRedraw := true }, sp.2)
    else sp
  else if s.currentPage = 0 then
    if upperC = 'T' then ({ s with currentPage := 1, needsFullRedraw := true }, sp.2)
    else if upperC = 'H' then ({ s with currentPage := 2, needsFullRedraw := true }, sp.2)
    else if upperC = 'P' then ({ s with currentPage := 3, needsFullRedraw := true }, sp.2)
    else if upperC = 'S' then ({ s with currentPage := 4, needsFullRedraw := true }, sp.2)
    else sp
  else if s.currentPage = 4 then
    if c = ';' then
      let sel := s.settingsSelection - 1
      ({ s with settingsSelection := if sel < 0 then 0 else sel, needsFullRedraw := true }, sp.2)
    else if c = '.' then
      let sel := s.settingsSelection + 1
      ({ s with settingsSelection := if 2 < sel then 2 else sel, needsFullRedraw := true }, sp.2)
    else if c = ',' then
      if s.settingsSelection = 0 then
        let nb0 := s.normalBrightness - 20
        let nb := if nb0 < 20 then 20 else nb0
        ({ s with normalBrightness := nb, brightness := nb, needsFullRedraw := true },
          sp.2 ++ [Op.setBrightness nb])
      else if s.settingsSelection = 1 then
        ({ s with useFahrenheit := false, dispTemp := -999, needsFullRedraw := true }, sp.2)
      else if s.settingsSelection = 2 then
        let o0 := s.screenTimeoutOption - 1
        ({ s with screenTimeoutOption := if o0 < 0 then 0 else o0, needsFullRedraw := true },
          sp.2)
      else sp
    else if c = '/' then
      if s.settingsSelection = 0 then
        let nb0 := s.normalBrightness + 20
        let nb := if 100 < nb0 then 100 else nb0
        ({ s with normalBrightness := nb, brightness := nb, needsFullRedraw := true },
          sp.2 ++ [Op.setBrightness nb])
      else if s.settingsSelection = 1 then
        ({ s with useFahrenheit := true, dispTemp := -999, needsFullRedraw := true }, sp.2)
      else if s.settingsSelection = 2 then
        let o0 := s.screenTimeoutOption + 1
        ({ s with screenTimeoutOption := if 2 < o0 then 2 else o0, needsFullRedraw := true },
          sp.2)
      else sp
    else sp
  else sp

/-- `handleKeyboard` (main.cpp:579-693).  A key event first feeds the
screen power machine: when the screen is not On, the event only wakes it
and handling returns before key interpretation. -/
def handleKeyboard (s : St) (isChange isPressed : Bool) (keys : List Char) (now : Nat) :
    St × List Op :=
  if isChange then
    if isPressed then
      if s.screenState ≠ ScreenState.on then wakeScreen s now
      else keys.foldl handleKey (wakeScreen s now)
    else (s, [])
  else (s, [])

/-! ### Data collection and the main loop (main.cpp:699-865) -/

/-- The append guard of `updateHistory` (main.cpp:701). -/
def historyDue (s : St) (now : Nat) : Prop :=
  historyInterval ≤ elapsedMs now s.lastHistoryUpdate ∨ s.historyCount = 0

instance (s : St) (now : Nat) : Decidable (historyDue s now) := by
  unfold historyDue
  infer_instance

/-- `updateHistory` (main.cpp:699-710). -/
def updateHistory (s : St) (now : Nat) : St :=
  if historyDue s now then
    { s with
        lastHistoryUpdate := now
        tempHistory := fun j => if j = s.historyIndex then s.temperature else s.tempHistory j
        humidityHistory :=
          fun j => if j = s.historyIndex then s.humidity else s.humidityHistory j
        pressureHistory :=
          fun j => if j = s.historyIndex then s.pressure else s.pressureHistory j
        historyIndex := (s.historyIndex + 1) % historySize
        historyCount :=
          if s.historyCount < historySize then s.historyCount + 1 else s.historyCount }
  else s

/-- The state on leaving `setup` (main.cpp:716-791): first readings taken,
first history point stored at slot 0 with cursor 1/count 1, timers primed,
defaults for everything else (C++ globals, main.cpp:21-90). -/
def initSt (t0 h0 rawP0 : ℚ) (now0 : Nat) : St where
  temperature := t0
  humidity := h0
  pressure := rawP0 / 100
  dispTemp := -999
  dispHumidity := -999
  dispPressure := -999
  tempHistory := fun j => if j = 0 then t0 else 0
  humidityHistory := fun j => if j = 0 then h0 else 0
  pressureHistory := fun j => if j = 0 then rawP0 / 100 else 0
  historyIndex := 1
  historyCount := 1
  lastHistoryUpdate := 0
  currentPage := 0
  lastActivityTime := now0
  normalBrightness := 80
  screenState := ScreenState.on
  lastDisplayUpdate := now0
  batteryFlashOn := true
  lastFlashTime := 0
  prevBatteryLevel := -1
  prevCharging := false
  needsFullRedraw := true
  graphDispValue := -999
  useFahrenheit := false
  screenTimeoutOption := 2
  settingsSelection := 0
  brightness := 80

/-- The external inputs consumed by one `loop` iteration: the keyboard
poll, the sensor reads (`sht30.cTemp`, `sht30.humidity`,
`qmp6988.pressure` in Pa), the battery queries, and the single
`millis()` time of the iteration. -/
structure LoopInput where
  now : Nat
  isChange : Bool
  isPressed : Bool
  keys : List Char
  cTemp : ℚ
  rhHumidity : ℚ
  rawPressure : ℚ
  batteryLevel : Int
  isCharging : Bool

/-- The display half of `loop` (main.cpp:810-862): the 1 Hz gate, the
screen-off guard, and the full/incremental page dispatch. -/
def displaySection (s4 : St) (inp : LoopInput) : St × List Op :=
  let shouldUpdateDisplay := displayInterval ≤ elapsedMs inp.now s4.lastDisplayUpdate
  (if s4.screenState ≠ ScreenState.off then
      if s4.needsFullRedraw then
        let sa := { s4 with needsFullRedraw := false, lastDisplayUpdate := inp.now }
        match sa.currentPage with
        | 0 =>
            let m := drawMainPageStatic sa inp.batteryLevel inp.isCharging inp.now
            let v := updateMainPageValues m.1 inp.batteryLevel inp.isCharging inp.now
            (v.1, m.2 ++ v.2)
        | 1 =>
            let g := drawGraphPageStatic sa .temperatureTitle sa.tempHistory COLOR_TEMP
              (getTempUnit sa.useFahrenheit) (getDisplayTemp sa.useFahrenheit sa.temperature)
              sa.useFahrenheit inp.batteryLevel inp.isCharging inp.now
            let u := updateGraphValue (getDisplayTemp g.1.useFahrenheit g.1.temperature)
              g.1.graphDispValue COLOR_TEMP (getTempUnit g.1.useFahrenheit) .temperatureTitle
            ({ g.1 with graphDispValue := u.1 }, g.2 ++ u.2)
        | 2 =>
            let g := drawGraphPageStatic sa .humidityTitle sa.humidityHistory COLOR_HUMIDITY
              .percent sa.humidity false inp.batteryLevel inp.isCharging inp.now
            let u := updateGraphValue g.1.humidity g.1.graphDispValue COLOR_HUMIDITY
              .percent .humidityTitle
            ({ g.1 with graphDispValue := u.1 }, g.2 ++ u.2)
        | 3 =>
            let g := drawGraphPageStatic sa .pressureTitle sa.pressureHistory COLOR_PRESSURE
              .hectopascal sa.pressure false inp.batteryLevel inp.isCharging inp.now
            let u := updateGraphValue g.1.pressure g.1.graphDispValue COLOR_PRESSURE
              .hectopascal .pressureTitle
            ({ g.1 with graphDispValue := u.1 }, g.2 ++ u.2)
        | 4 => drawSettingsPageStatic sa inp.batteryLevel inp.isCharging inp.now
        | _ => (sa, [])
      else if shouldUpdateDisplay then
        let sa := { s4 with lastDisplayUpdate := inp.now }
        match sa.currentPage with
        | 0 => updateMainPageValues sa inp.batteryLevel inp.isCharging inp.now
        | 1 =>
            let u := updateGraphValue (getDisplayTemp sa.useFahrenheit sa.temperature)
              sa.graphDispValue COLOR_TEMP (getTempUnit sa.useFahrenheit) .temperatureTitle
            let bt := drawBattery { sa with graphDispValue := u.1 } false
              inp.batteryLevel inp.isCharging inp.now
            (bt.1, u.2 ++ bt.2)
        | 2 =>
            let u := updateGraphValue sa.humidity sa.graphDispValue COLOR_HUMIDITY
              .percent .humidityTitle
            let bt := drawBattery { sa with graphDispValue := u.1 } false
              inp.batteryLevel inp.isCharging inp.now
            (bt.1, u.2 ++ bt.2)
        | 3 =>
            let u := updateGraphValue sa.pressure sa.graphDispValue COLOR_PRESSURE
              .hectopascal .pressureTitle
            let bt := drawBattery { sa with graphDispValue := u.1 } false
              inp.batteryLevel inp.isCharging inp.now
            (bt.1, u.2 ++ bt.2)
        | 4 => drawBattery sa false inp.batteryLevel inp.isCharging inp.now
        | _ => (sa, [])
      else (s4, [])
    else (s4, []))

/-- `loop` (main.cpp:797-865). -/
def loopStep (s : St) (inp : LoopInput) : St × List Op :=
  let kb := handleKeyboard s inp.isChange inp.isPressed inp.keys inp.now
  let st := updateScreenTimeout kb.1 inp.now
  let s3 := { st.1 with
    temperature := inp.cTemp
    humidity := inp.rhHumidity
    pressure := inp.rawPressure / 100 }
  let s4 := updateHistory s3 inp.now
  let disp := displaySection s4 inp
  (disp.1, kb.2 ++ st.2 ++ disp.2)

/-! ### Trace helpers for the history cadence -/

/-- The times, among the iteration times `ts`, at which `updateHistory`
appends a sample. -/
def histAppendTimes (s : St) : List Nat → List Nat
  | [] => []
  | t :: ts =>
      if historyDue s t then t :: histAppendTimes (updateHistory s t) ts
      else histAppendTimes (updateHistory s t) ts

/-- Sanity of an iteration-time trace relative to a previous stored time:
times are non-decreasing and consecutive gaps stay below 2^32 minus the
history interval (true of a device polling every ~50 ms). -/
def timesSane : Nat → List Nat → Bool
  | _, [] => true
  | prev, t :: ts =>
      (decide (prev ≤ t) && decide (t - prev ≤ U32 - historyInterval)) && timesSane t ts

/-- Link between a stored timestamp and the first following iteration
time: non-decreasing and within one 32-bit wrap. -/
def headLinkOk (last : Nat) : List Nat → Prop
  | [] => True
  | t :: _ => last ≤ t ∧ t - last < U32

/-- Consecutive iteration times are non-decreasing with gaps at most
`U32 - historyInterval`. -/
def stepGapsOk : List Nat → Bool
  | [] => true
  | [_] => true
  | t1 :: t2 :: ts =>
      (decide (t1 ≤ t2) && decide (t2 - t1 ≤ U32 - historyInterval)) && stepGapsOk (t2 :: ts)

/-- The state components never touched by the display half of the loop:
screen power state, backlight, current sensor values. -/
def powerView (s : St) : ScreenState × Int × ℚ × ℚ × ℚ :=
  (s.screenState, s.brightness, s.temperature, s.humidity, s.pressure)

theorem histInv_empty : histInv HistRing.empty := by
  constructor <;> simp [HistRing.empty, historySize]

theorem histInv_append (r : HistRing) (v : ℚ) (h : histInv r) :
    histInv (r.append v) := by
  obtain ⟨h1, h2⟩ := h
  constructor
  · exact Nat.mod_lt _ (by norm_num [historySize])
  · unfold HistRing.append
    simp only
    split <;> omega

theorem ringReadIdx_eq (idx count i : Nat) (hc : count ≤ historySize) :
    ringReadIdx idx count i = (idx + historySize - count + i) % historySize := by
  unfold ringReadIdx historySize at *
  rw [Int.tmod_eq_emod (by omega) (by omega)]
  omega

theorem length_readOrdered (r : HistRing) : r.readOrdered.length = r.count := by
  simp [HistRing.readOrdered]

theorem readOrdered_append_lt (r : HistRing) (v : ℚ) (h : histInv r)
    (hc : r.count < historySize) :
    (r.append v).readOrdered = r.readOrdered ++ [v] := by
  obtain ⟨h1, _⟩ := h
  unfold HistRing.readOrdered HistRing.append
  simp only
  rw [if_pos hc, List.range_succ, List.map_append]
  congr 1
  · apply List.map_congr_left
    intro i hi
    rw [List.mem_range] at hi
    have e1 : ringReadIdx ((r.idx + 1) % historySize) (r.count + 1) i =
        ringReadIdx r.idx r.count i := by
      rw [ringReadIdx_eq _ _ _ (by omega), ringReadIdx_eq _ _ _ (by omega)]
      unfold historySize at *
      omega
    rw [e1]
    have e2 : ringReadIdx r.idx r.count i ≠ r.idx := by
      rw [ringReadIdx_eq _ _ _ (by omega)]
      unfold historySize at *
      omega
    simp [e2]
  · simp only [List.map_cons, List.map_nil]
    have e3 : ringReadIdx ((r.idx + 1) % historySize) (r.count + 1) r.count = r.idx := by
      rw [ringReadIdx_eq _ _ _ (by omega)]
      unfold historySize at *
      omega
    rw [e3]
    simp

theorem readOrdered_tail_aux (n : Nat) (f g : Nat → ℚ)
    (hg : ∀ i, i < n → g i = f (i + 1)) :
    (List.range n).map g = ((List.range (n + 1)).map f).drop 1 := by
  induction n with
  | zero => simp [List.range_succ]
  | succ n ih =>
      rw [List.range_succ, List.map_append]
      rw [show List.range (n + 1 + 1) = List.range (n + 1) ++ [n + 1] from
        List.range_succ (n + 1)]
      rw [List.map_append, List.drop_append_of_le_length (by simp)]
      rw [ih (fun i hi => hg i (by omega))]
      simp [hg n (by omega)]

theorem readOrdered_append_full (r : HistRing) (v : ℚ) (h : histInv r)
    (hc : r.count = historySize) :
    (r.append v).readOrdered = r.readOrdered.drop 1 ++ [v] := by
  obtain ⟨h1, _⟩ := h
  unfold HistRing.readOrdered HistRing.append
  simp only
  rw [if_neg (by omega), hc]
  rw [show List.range historySize = List.range 59 ++ [59] from List.range_succ 59]
  rw [List.map_append]
  have haux := readOrdered_tail_aux 59
    (fun i => r.data (ringReadIdx r.idx historySize i))
    (fun i => if ringReadIdx ((r.idx + 1) % historySize) historySize i = r.idx then v
      else r.data (ringReadIdx ((r.idx + 1) % historySize) historySize i))
    (fun i hi => by
      have e1 : ringReadIdx ((r.idx + 1) % historySize) historySize i =
          ringReadIdx r.idx historySize (i + 1) := by
        rw [ringReadIdx_eq _ _ _ (by omega), ringReadIdx_eq _ _ _ (by omega)]
        unfold historySize at *
        omega
      have e2 : ringReadIdx r.idx historySize (i + 1) ≠ r.idx := by
        rw [ringReadIdx_eq _ _ _ (by omega)]
        unfold historySize at *
        omega
      simp only [e1, if_neg e2])
  rw [show (59 : Nat) + 1 = historySize from rfl] at haux
  rw [haux]
  congr 1
  have e3 : ringReadIdx ((r.idx + 1) % historySize) historySize 59 = r.idx := by
    rw [ringReadIdx_eq _ _ _ (by omega)]
    unfold historySize at *
    omega
  simp [e3]

theorem appendAll_append (r : HistRing) (vs : List ℚ) (v : ℚ) :
    appendAll r (vs ++ [v]) = (appendAll r vs).append v := by
  simp [appendAll, List.foldl_append]

theorem histInv_appendAll (r : HistRing) (vs : List ℚ) (h : histInv r) :
    histInv (appendAll r vs) := by
  induction vs generalizing r with
  | nil => exact h
  | cons x xs ih => exact ih _ (histInv_append _ _ h)

theorem count_appendAll (vs : List ℚ) :
    (appendAll HistRing.empty vs).count = min vs.length historySize := by
  induction vs using List.reverseRecOn with
  | nil => simp [appendAll, HistRing.empty]
  | append_singleton xs x ih =>
      rw [appendAll_append]
      unfold HistRing.append
      simp only
      have hinv := histInv_appendAll HistRing.empty xs histInv_empty
      obtain ⟨_, h2⟩ := hinv
      rw [ih] at *
      simp only [List.length_append, List.length_cons, List.length_nil]
      split <;> omega

theorem idx_appendAll (vs : List ℚ) :
    (appendAll HistRing.empty vs).idx = vs.length % historySize := by
  induction vs using List.reverseRecOn with
  | nil => simp [appendAll, HistRing.empty]
  | append_singleton xs x ih =>
      rw [appendAll_append]
      unfold HistRing.append
      simp only
      rw [ih]
      simp only [List.length_append, List.length_cons, List.length_nil]
      unfold historySize
      omega

theorem readOrdered_appendAll (vs : List ℚ) :
    (appendAll HistRing.empty vs).readOrdered = vs.drop (vs.length - historySize) := by
  induction vs using List.reverseRecOn with
  | nil => simp [appendAll, HistRing.empty, HistRing.readOrdered]
  | append_singleton xs x ih =>
      rw [appendAll_append]
      have hinv := histInv_appendAll HistRing.empty xs histInv_empty
      by_cases hlt : xs.length < historySize
      · rw [readOrdered_append_lt _ _ hinv (by rw [count_appendAll]; omega)]
        rw [ih]
        have e1 : xs.length - historySize = 0 := by omega
        have e2 : xs.length + 1 - historySize = 0 := by omega
        simp [e1, e2]
      · rw [readOrdered_append_full _ _ hinv
          (by rw [count_appendAll]; unfold historySize at *; omega)]
        rw [ih, List.drop_drop]
        rw [List.drop_append_of_le_length
          (by simp only [List.length_append, List.length_cons, List.length_nil]
              unfold historySize at *
              omega)]
        simp only [List.length_append, List.length_cons, List.length_nil]
        congr 2
        unfold historySize at *
        omega

/-! ### Elapsed-time lemmas -/

theorem elapsedMs_eq (now last : Nat) (h1 : last ≤ now) (h2 : now - last < U32) :
    elapsedMs now last = now - last := by
  unfold elapsedMs U32 at *
  rw [Int.emod_eq_of_lt (by omega) (by omega)]
  omega

theorem elapsedMs_self (now : Nat) : elapsedMs now now = 0 := by
  unfold elapsedMs
  simp

/-! ### Preservation lemmas: the display half never touches power state,
backlight, or sensor values -/

theorem powerView_drawBattery (s : St) (f : Bool) (b : Int) (c : Bool) (n : Nat) :
    powerView (drawBattery s f b c n).1 = powerView s := by
  unfold drawBattery
  simp only []
  split_ifs <;> rfl

theorem powerView_drawMainPageStatic (s : St) (b : Int) (c : Bool) (n : Nat) :
    powerView (drawMainPageStatic s b c n).1 = powerView s := by
  unfold drawMainPageStatic
  have h := powerView_drawBattery s true b c n
  simp only [powerView] at *
  simpa using h

theorem powerView_setDisp (s : St) (a b c : ℚ) :
    powerView { s with dispTemp := a, dispHumidity := b, dispPressure := c } = powerView s :=
  rfl

theorem powerView_setGraphDisp (s : St) (v : ℚ) :
    powerView { s with graphDispValue := v } = powerView s :=
  rfl

theorem powerView_setRedrawTime (s : St) (b : Bool) (n : Nat) :
    powerView { s with needsFullRedraw := b, lastDisplayUpdate := n } = powerView s :=
  rfl

theorem powerView_setDispUpdate (s : St) (n : Nat) :
    powerView { s with lastDisplayUpdate := n } = powerView s :=
  rfl

theorem powerView_updateMainPageValues (s : St) (b : Int) (c : Bool) (n : Nat) :
    powerView (updateMainPageValues s b c n).1 = powerView s := by
  unfold updateMainPageValues
  rw [powerView_drawBattery]
  rfl

theorem powerView_drawGraphPageStatic (s : St) (t : TitleLabel) (hist : Nat → ℚ)
    (color : Nat) (u : UnitLabel) (cv : ℚ) (cf : Bool) (b : Int) (c : Bool) (n : Nat) :
    powerView (drawGraphPageStatic s t hist color u cv cf b c n).1 = powerView s := by
  unfold drawGraphPageStatic
  have h := powerView_drawBattery s true b c n
  simp only [powerView] at *
  simpa using h

theorem powerView_drawSettingsPageStatic (s : St) (b : Int) (c : Bool) (n : Nat) :
    powerView (drawSettingsPageStatic s b c n).1 = powerView s := by
  unfold drawSettingsPageStatic
  rw [powerView_drawBattery]

theorem powerView_updateHistory (s : St) (n : Nat) :
    powerView (updateHistory s n) = powerView s := by
  unfold updateHistory
  split <;> rfl

theorem powerView_displaySection (s4 : St) (inp : LoopInput) :
    powerView (displaySection s4 inp).1 = powerView s4 := by
  unfold displaySection
  simp only []
  split
  · split
    · split <;>
        (simp only [powerView_drawMainPageStatic, powerView_updateMainPageValues,
          powerView_drawGraphPageStatic, powerView_drawSettingsPageStatic,
          powerView_drawBattery, powerView_setGraphDisp, powerView_setRedrawTime,
          powerView_setDispUpdate]
         try rfl)
    · split
      · split <;>
          (simp only [powerView_drawMainPageStatic, powerView_updateMainPageValues,
            powerView_drawGraphPageStatic, powerView_drawSettingsPageStatic,
            powerView_drawBattery, powerView_setGraphDisp, powerView_setRedrawTime,
            powerView_setDispUpdate]
           try rfl)
      · rfl
  · rfl

/-! ### Min/max fold lemmas -/

theorem cmin_eq (m x : ℚ) : (if x < m then x else m) = min m x := by
  rcases lt_or_le x m with h | h
  · rw [if_pos h, min_eq_right h.le]
  · rw [if_neg (not_lt.mpr h), min_eq_left h]

theorem cmax_eq (M x : ℚ) : (if M < x then x else M) = max M x := by
  rcases lt_or_le M x with h | h
  · rw [if_pos h, max_eq_right h.le]
  · rw [if_neg (not_lt.mpr h), max_eq_left h]

theorem foldMinMax_pair (vals : List ℚ) (m M : ℚ) :
    vals.foldl (fun p val =>
        (if val < p.1 then val else p.1, if p.2 < val then val else p.2)) (m, M) =
      (vals.foldl min m, vals.foldl max M) := by
  induction vals generalizing m M with
  | nil => rfl
  | cons x xs ih =>
      simp only [List.foldl_cons]
      rw [cmin_eq, cmax_eq]
      exact ih (min m x) (max M x)

theorem foldMinMax_eq (vals : List ℚ) (a : ℚ) :
    foldMinMax vals a = (vals.foldl min a, vals.foldl max a) := by
  unfold foldMinMax
  exact foldMinMax_pair vals a a

/-! ### Display-cache epsilon lemma -/

theorem cAbs_eq_abs (q : ℚ) : cAbs q = |q| := by
  unfold cAbs
  rcases lt_or_le q 0 with h | h
  · rw [if_pos h, abs_of_neg h]
  · rw [if_neg (not_lt.mpr h), abs_of_nonneg h]

/-! ### Claim theorems -/

/-- C1: for every sequence of appends to the 60-entry History Ring Buffer
starting from empty, the ordered read has length `min appendCount 60` and
equals the suffix of the appended values (oldest first, chronological);
a further append writes the value at the current cursor, advances the
cursor modulo 60, and increments the count up to the ceiling 60. -/
theorem ring_buffer_readOrdered_correct (vs : List ℚ) (v : ℚ) :
    (appendAll HistRing.empty vs).readOrdered.length = min vs.length historySize ∧
    (appendAll HistRing.empty vs).readOrdered = vs.drop (vs.length - historySize) ∧
    ((appendAll HistRing.empty vs).append v).data (appendAll HistRing.empty vs).idx = v ∧
    ((appendAll HistRing.empty vs).append v).idx =
      ((appendAll HistRing.empty vs).idx + 1) % historySize ∧
    ((appendAll HistRing.empty vs).append v).count =
      min ((appendAll HistRing.empty vs).count + 1) historySize := by
  refine ⟨?_, readOrdered_appendAll vs, ?_, rfl, ?_⟩
  · rw [length_readOrdered, count_appendAll]
  · unfold HistRing.append
    simp
  · have h := (histInv_appendAll HistRing.empty vs histInv_empty).2
    unfold HistRing.append
    simp only
    split <;> (unfold historySize at *; omega)

/-- C2: after exactly 61 appends the ordered read is the last 60 appended
values: the very first appended value's slot is overwritten (FIFO) and
the 61st value is present as the final element. -/
theorem ring_buffer_fifo_after_61 (vs : List ℚ) (h : vs.length = 61) :
    (appendAll HistRing.empty vs).readOrdered = vs.drop 1 ∧
    (appendAll HistRing.empty vs).readOrdered.length = 60 ∧
    (appendAll HistRing.empty vs).readOrdered[59]? = vs[60]? := by
  have e := readOrdered_appendAll vs
  have e1 : vs.length - historySize = 1 := by
    rw [h]
    norm_num [historySize]
  rw [e1] at e
  refine ⟨e, ?_, ?_⟩
  · rw [e, List.length_drop, h]
  · rw [e, List.getElem?_drop]

/-- C2 witness at a concrete 61-element sequence. -/
theorem ring_buffer_fifo_after_61_witness :
    (List.replicate 61 (3 : ℚ)).length = 61 ∧
    ((appendAll HistRing.empty (List.replicate 61 (3 : ℚ))).readOrdered =
      (List.replicate 61 (3 : ℚ)).drop 1 ∧
    (appendAll HistRing.empty (List.replicate 61 (3 : ℚ))).readOrdered.length = 60 ∧
    (appendAll HistRing.empty (List.replicate 61 (3 : ℚ))).readOrdered[59]? =
      (List.replicate 61 (3 : ℚ))[60]?) :=
  ⟨by simp, ring_buffer_fifo_after_61 _ (by simp)⟩

/-- C3: for samples with at least 2 values, the Graph Scaler's single-pass
fold computes the true minimum and maximum; when `max - min < 2` the
padded bounds are `[mid - 1, mid + 1]` (span exactly 2, centred on the
midpoint), otherwise they are `[min - range/10, max + range/10]`. -/
theorem graph_scaler_bounds (vals : List ℚ) (mn mx : ℚ) (h2 : 2 ≤ vals.length)
    (hmm : foldMinMax vals (vals.headD 0) = (mn, mx)) :
    vals.min? = some mn ∧
    vals.max? = some mx ∧
    (mx - mn < 2 →
      padBounds mn mx = ((mx + mn) / 2 - 1, (mx + mn) / 2 + 1, 2) ∧
      ((mx + mn) / 2 + 1) - ((mx + mn) / 2 - 1) = 2 ∧
      (((mx + mn) / 2 - 1) + ((mx + mn) / 2 + 1)) / 2 = (mx + mn) / 2) ∧
    (2 ≤ mx - mn →
      padBounds mn mx =
        (mn - (mx - mn) * (1 / 10), mx + (mx - mn) * (1 / 10),
          (mx + (mx - mn) * (1 / 10)) - (mn - (mx - mn) * (1 / 10)))) := by
  obtain ⟨x, xs, rfl⟩ : ∃ x xs, vals = x :: xs := by
    cases vals with
    | nil => simp at h2
    | cons x xs => exact ⟨x, xs, rfl⟩
  rw [foldMinMax_eq] at hmm
  simp only [List.headD_cons, List.foldl_cons, min_self, max_self] at hmm
  have hfst : xs.foldl min x = mn := congrArg Prod.fst hmm
  have hsnd : xs.foldl max x = mx := congrArg Prod.snd hmm
  subst hfst
  subst hsnd
  refine ⟨rfl, rfl, ?_, ?_⟩
  · intro hflat
    unfold padBounds
    rw [if_pos hflat]
    refine ⟨rfl, by ring, by ring⟩
  · intro hwide
    unfold padBounds
    rw [if_neg (not_lt.mpr hwide)]

/-- C3 witness at a concrete flat two-sample series. -/
theorem graph_scaler_bounds_witness :
    (2 ≤ ([21, 21] : List ℚ).length ∧
      foldMinMax ([21, 21] : List ℚ) (([21, 21] : List ℚ).headD 0) = (21, 21)) ∧
    (([21, 21] : List ℚ).min? = some 21 ∧
     ([21, 21] : List ℚ).max? = some 21 ∧
     ((21 : ℚ) - 21 < 2 →
       padBounds 21 21 = (((21 : ℚ) + 21) / 2 - 1, ((21 : ℚ) + 21) / 2 + 1, 2) ∧
       (((21 : ℚ) + 21) / 2 + 1) - (((21 : ℚ) + 21) / 2 - 1) = 2 ∧
       ((((21 : ℚ) + 21) / 2 - 1) + (((21 : ℚ) + 21) / 2 + 1)) / 2 = ((21 : ℚ) + 21) / 2) ∧
     (2 ≤ (21 : ℚ) - 21 →
       padBounds 21 21 =
         (21 - ((21 : ℚ) - 21) * (1 / 10), 21 + ((21 : ℚ) - 21) * (1 / 10),
           (21 + ((21 : ℚ) - 21) * (1 / 10)) - (21 - ((21 : ℚ) - 21) * (1 / 10))))) :=
  ⟨⟨by simp, by simp [foldMinMax]⟩,
    graph_scaler_bounds [21, 21] 21 21 (by simp) (by simp [foldMinMax])⟩

/-- C4: an incremental field redraw whose new value differs from the
cached display value by less than 0.05 leaves the cache unchanged and
emits no clear/draw op, and a redraw is skipped (empty op list) only
under that sub-epsilon condition — for both the main-page value boxes
and the graph current-value field. -/
theorem incremental_redraw_epsilon (boxX : Int) (value dispValue : ℚ) (color : Nat)
    (decimals : Nat) (u : UnitLabel) (gval gdisp : ℚ) (gcolor : Nat) (gu : UnitLabel)
    (t : TitleLabel) :
    (|value - dispValue| < displayEpsilon →
      updateSingleBoxValue boxX value dispValue color decimals u = (dispValue, [])) ∧
    ((updateSingleBoxValue boxX value dispValue color decimals u).2 = [] →
      |value - dispValue| < displayEpsilon) ∧
    (|gval - gdisp| < displayEpsilon →
      updateGraphValue gval gdisp gcolor gu t = (gdisp, [])) ∧
    ((updateGraphValue gval gdisp gcolor gu t).2 = [] → |gval - gdisp| < displayEpsilon) := by
  refine ⟨?_, ?_, ?_, ?_⟩
  · intro hlt
    unfold updateSingleBoxValue
    rw [cAbs_eq_abs, if_pos hlt]
  · intro hops
    by_contra hlt
    unfold updateSingleBoxValue at hops
    rw [cAbs_eq_abs, if_neg hlt] at hops
    simp at hops
  · intro hlt
    unfold updateGraphValue
    rw [cAbs_eq_abs, if_pos hlt]
  · intro hops
    by_contra hlt
    unfold updateGraphValue at hops
    rw [cAbs_eq_abs, if_neg hlt] at hops
    simp at hops

/-- C4 witness: an unchanged value (delta 0) skips the redraw; on the
graph field a delta of 1 does redraw (empty-ops converse exercised via
the implication at a concrete sub-epsilon input). -/
theorem incremental_redraw_epsilon_witness :
    (|(5 : ℚ) - 5| < displayEpsilon) ∧
    updateSingleBoxValue tempBoxX 5 5 COLOR_TEMP 1 UnitLabel.celsius = (5, []) ∧
    updateGraphValue 5 5 COLOR_TEMP UnitLabel.celsius TitleLabel.temperatureTitle = (5, []) :=
  ⟨by simp [displayEpsilon],
   (incremental_redraw_epsilon tempBoxX 5 5 COLOR_TEMP 1 UnitLabel.celsius 5 5 COLOR_TEMP
      UnitLabel.celsius TitleLabel.temperatureTitle).1 (by simp [displayEpsilon]),
   (incremental_redraw_epsilon tempBoxX 5 5 COLOR_TEMP 1 UnitLabel.celsius 5 5 COLOR_TEMP
      UnitLabel.celsius TitleLabel.temperatureTitle).2.2.1 (by simp [displayEpsilon])⟩

/-- C10: `updateHistory` preserves the ring invariant
(`historyIndex < 60`, `historyCount ≤ 60`), keeps the count at least 1
once a sample is stored, and every read index
`(historyIndex - historyCount + i + 60) % 60` for `i < historyCount` is
computed from a non-negative dividend and lands inside the three
60-element arrays; the post-`setup` state satisfies the invariant with
count 1. -/
theorem history_ring_invariant (s : St) (now : Nat) (i : Nat) (t0 h0 p0 : ℚ) (n0 : Nat)
    (h : s.historyIndex < historySize ∧ s.historyCount ≤ historySize)
    (hi : i < (updateHistory s now).historyCount) :
    ((updateHistory s now).historyIndex < historySize ∧
      (updateHistory s now).historyCount ≤ historySize) ∧
    (1 ≤ s.historyCount → 1 ≤ (updateHistory s now).historyCount) ∧
    ringReadIdx (updateHistory s now).historyIndex (updateHistory s now).historyCount i
      < historySize ∧
    0 ≤ ((updateHistory s now).historyIndex : Int) -
      ((updateHistory s now).historyCount : Int) + (i : Int) + (historySize : Int) ∧
    (initSt t0 h0 p0 n0).historyIndex < historySize ∧
    (initSt t0 h0 p0 n0).historyCount = 1 := by
  obtain ⟨h1, h2⟩ := h
  have hinv : (updateHistory s now).historyIndex < historySize ∧
      (updateHistory s now).historyCount ≤ historySize := by
    unfold updateHistory
    split
    · constructor
      · exact Nat.mod_lt _ (by norm_num [historySize])
      · simp only
        split <;> omega
    · exact ⟨h1, h2⟩
  refine ⟨hinv, ?_, ?_, ?_, ?_, ?_⟩
  · intro hc
    unfold updateHistory
    split
    · simp only
      split <;> omega
    · exact hc
  · rw [ringReadIdx_eq _ _ _ hinv.2]
    exact Nat.mod_lt _ (by norm_num [historySize])
  · have := hinv.2
    omega
  · simp [initSt, historySize]
  · simp [initSt]

/-- C10 witness: post-`setup` state, one minute later, reading index 0. -/
theorem history_ring_invariant_witness :
    ((initSt 20 50 101300 0).historyIndex < historySize ∧
      (initSt 20 50 101300 0).historyCount ≤ historySize) ∧
    (0 < (updateHistory (initSt 20 50 101300 0) 60000).historyCount) ∧
    ringReadIdx (updateHistory (initSt 20 50 101300 0) 60000).historyIndex
      (updateHistory (initSt 20 50 101300 0) 60000).historyCount 0 < historySize :=
  ⟨by decide,
   Nat.lt_of_lt_of_le (by decide)
     ((history_ring_invariant (initSt 20 50 101300 0) 60000 0 20 50 101300 0
        (by decide) (by decide)).2.1 (by decide)),
   (history_ring_invariant (initSt 20 50 101300 0) 60000 0 20 50 101300 0
      (by decide) (by decide)).2.2.1⟩

/-! ### Keyboard and screen-power lemmas -/

theorem wakeScreen_on_eq (s : St) (now : Nat) (h : s.screenState = ScreenState.on) :
    wakeScreen s now = ({ s with lastActivityTime := now }, []) := by
  unfold wakeScreen
  simp [h]

theorem handleKey_keeps (sp : St × List Op) (c : Char) :
    (handleKey sp c).1.lastActivityTime = sp.1.lastActivityTime ∧
    (handleKey sp c).1.screenState = sp.1.screenState := by
  unfold handleKey
  simp only []
  by_cases hA : c.toNat = 96 ∨ c = '~' ∨ c.toNat = 27
  · rw [if_pos hA]
    by_cases hB : sp.1.currentPage ≠ 0
    · rw [if_pos hB]
      exact ⟨rfl, rfl⟩
    · rw [if_neg hB]
      exact ⟨rfl, rfl⟩
  · rw [if_neg hA]
    by_cases hC : sp.1.currentPage = 0
    · rw [if_pos hC]
      by_cases hT : toUpperC c = 'T'
      · rw [if_pos hT]
        exact ⟨rfl, rfl⟩
      · rw [if_neg hT]
        by_cases hH : toUpperC c = 'H'
        · rw [if_pos hH]
          exact ⟨rfl, rfl⟩
        · rw [if_neg hH]
          by_cases hP : toUpperC c = 'P'
          · rw [if_pos hP]
            exact ⟨rfl, rfl⟩
          · rw [if_neg hP]
            by_cases hS : toUpperC c = 'S'
            · rw [if_pos hS]
              exact ⟨rfl, rfl⟩
            · rw [if_neg hS]
              exact ⟨rfl, rfl⟩
    · rw [if_neg hC]
      by_cases hE : sp.1.currentPage = 4
      · rw [if_pos hE]
        by_cases k1 : c = ';'
        · rw [if_pos k1]
          exact ⟨rfl, rfl⟩
        · rw [if_neg k1]
          by_cases k2 : c = '.'
          · rw [if_pos k2]
            exact ⟨rfl, rfl⟩
          · rw [if_neg k2]
            by_cases k3 : c = ','
            · rw [if_pos k3]
              by_cases m1 : sp.1.settingsSelection = 0
              · rw [if_pos m1]
                exact ⟨rfl, rfl⟩
              · rw [if_neg m1]
                by_cases m2 : sp.1.settingsSelection = 1
                · rw [if_pos m2]
                  exact ⟨rfl, rfl⟩
                · rw [if_neg m2]
                  by_cases m3 : sp.1.settingsSelection = 2
                  · rw [if_pos m3]
                    exact ⟨rfl, rfl⟩
                  · rw [if_neg m3]
                    exact ⟨rfl, rfl⟩
            · rw [if_neg k3]
              by_cases k4 : c = '/'
              · rw [if_pos k4]
                by_cases m1 : sp.1.settingsSelection = 0
                · rw [if_pos m1]
                  exact ⟨rfl, rfl⟩
                · rw [if_neg m1]
                  by_cases m2 : sp.1.settingsSelection = 1
                  · rw [if_pos m2]
                    exact ⟨rfl, rfl⟩
                  · rw [if_neg m2]
                    by_cases m3 : sp.1.settingsSelection = 2
                    · rw [if_pos m3]
                      exact ⟨rfl, rfl⟩
                    · rw [if_neg m3]
                      exact ⟨rfl, rfl⟩
              · rw [if_neg k4]
                exact ⟨rfl, rfl⟩
      · rw [if_neg hE]
        exact ⟨rfl, rfl⟩

theorem foldl_handleKey_keeps (keys : List Char) (sp : St × List Op) :
    (keys.foldl handleKey sp).1.lastActivityTime = sp.1.lastActivityTime ∧
    (keys.foldl handleKey sp).1.screenState = sp.1.screenState := by
  induction keys generalizing sp with
  | nil => exact ⟨rfl, rfl⟩
  | cons k ks ih =>
      simp only [List.foldl_cons]
      obtain ⟨h1, h2⟩ := ih (handleKey sp k)
      obtain ⟨g1, g2⟩ := handleKey_keeps sp k
      exact ⟨h1.trans g1, h2.trans g2⟩

theorem wakeScreen_sel_opt (s : St) (now : Nat) :
    (wakeScreen s now).1.settingsSelection = s.settingsSelection ∧
    (wakeScreen s now).1.screenTimeoutOption = s.screenTimeoutOption := by
  unfold wakeScreen
  simp only []
  by_cases h : ({ s with lastActivityTime := now } : St).screenState ≠ ScreenState.on
  · rw [if_pos h]
    exact ⟨rfl, rfl⟩
  · rw [if_neg h]
    exact ⟨rfl, rfl⟩

theorem handleKey_bounds (sp : St × List Op) (c : Char)
    (h1 : 0 ≤ sp.1.settingsSelection ∧ sp.1.settingsSelection ≤ 2)
    (h2 : 0 ≤ sp.1.screenTimeoutOption ∧ sp.1.screenTimeoutOption ≤ 2) :
    (0 ≤ (handleKey sp c).1.settingsSelection ∧ (handleKey sp c).1.settingsSelection ≤ 2) ∧
    (0 ≤ (handleKey sp c).1.screenTimeoutOption ∧
      (handleKey sp c).1.screenTimeoutOption ≤ 2) := by
  unfold handleKey
  simp only []
  by_cases hA : c.toNat = 96 ∨ c = '~' ∨ c.toNat = 27
  · rw [if_pos hA]
    by_cases hB : sp.1.currentPage ≠ 0
    · rw [if_pos hB]
      exact ⟨h1, h2⟩
    · rw [if_neg hB]
      exact ⟨h1, h2⟩
  · rw [if_neg hA]
    by_cases hC : sp.1.currentPage = 0
    · rw [if_pos hC]
      by_cases hT : toUpperC c = 'T'
      · rw [if_pos hT]
        exact ⟨h1, h2⟩
      · rw [if_neg hT]
        by_cases hH : toUpperC c = 'H'
        · rw [if_pos hH]
          exact ⟨h1, h2⟩
        · rw [if_neg hH]
          by_cases hP : toUpperC c = 'P'
          · rw [if_pos hP]
            exact ⟨h1, h2⟩
          · rw [if_neg hP]
            by_cases hS : toUpperC c = 'S'
            · rw [if_pos hS]
              exact ⟨h1, h2⟩
            · rw [if_neg hS]
              exact ⟨h1, h2⟩
    · rw [if_neg hC]
      by_cases hE : sp.1.currentPage = 4
      · rw [if_pos hE]
        by_cases k1 : c = ';'
        · rw [if_pos k1]
          refine ⟨⟨?_, ?_⟩, h2⟩ <;>
            (simp only []
             split_ifs <;> omega)
        · rw [if_neg k1]
          by_cases k2 : c = '.'
          · rw [if_pos k2]
            refine ⟨⟨?_, ?_⟩, h2⟩ <;>
              (simp only []
               split_ifs <;> omega)
          · rw [if_neg k2]
            by_cases k3 : c = ','
            · rw [if_pos k3]
              by_cases m1 : sp.1.settingsSelection = 0
              · rw [if_pos m1]
                exact ⟨h1, h2⟩
              · rw [if_neg m1]
                by_cases m2 : sp.1.settingsSelection = 1
                · rw [if_pos m2]
                  exact ⟨h1, h2⟩
                · rw [if_neg m2]
                  by_cases m3 : sp.1.settingsSelection = 2
                  · rw [if_pos m3]
                    refine ⟨h1, ?_, ?_⟩ <;>
                      (simp only []
                       split_ifs <;> omega)
                  · rw [if_neg m3]
                    exact ⟨h1, h2⟩
            · rw [if_neg k3]
              by_cases k4 : c = '/'
              · rw [if_pos k4]
                by_cases m1 : sp.1.settingsSelection = 0
                · rw [if_pos m1]
                  exact ⟨h1, h2⟩
                · rw [if_neg m1]
                  by_cases m2 : sp.1.settingsSelection = 1
                  · rw [if_pos m2]
                    exact ⟨h1, h2⟩
                  · rw [if_neg m2]
                    by_cases m3 : sp.1.settingsSelection = 2
                    · rw [if_pos m3]
                      refine ⟨h1, ?_, ?_⟩ <;>
                        (simp only []
                         split_ifs <;> omega)
                    · rw [if_neg m3]
                      exact ⟨h1, h2⟩
              · rw [if_neg k4]
                exact ⟨h1, h2⟩
      · rw [if_neg hE]
        exact ⟨h1, h2⟩

theorem foldl_handleKey_bounds (keys : List Char) (sp : St × List Op)
    (h1 : 0 ≤ sp.1.settingsSelection ∧ sp.1.settingsSelection ≤ 2)
    (h2 : 0 ≤ sp.1.screenTimeoutOption ∧ sp.1.screenTimeoutOption ≤ 2) :
    (0 ≤ (keys.foldl handleKey sp).1.settingsSelection ∧
      (keys.foldl handleKey sp).1.settingsSelection ≤ 2) ∧
    (0 ≤ (keys.foldl handleKey sp).1.screenTimeoutOption ∧
      (keys.foldl handleKey sp).1.screenTimeoutOption ≤ 2) := by
  induction keys generalizing sp with
  | nil => exact ⟨h1, h2⟩
  | cons k ks ih =>
      simp only [List.foldl_cons]
      obtain ⟨g1, g2⟩ := handleKey_bounds sp k h1 h2
      exact ih (handleKey sp k) g1 g2

/-- C5: every key event first feeds the Screen Power State Machine: if
the screen was Off, `handleKeyboard` is exactly the wake transition (no
interpretation), so with page Main a press of lowercase 'h' leaves the
page Main and turns the screen on; with the screen On and page Main, the
same press navigates to the Humidity graph (page 2). -/
theorem key_event_wake_before_nav (s : St) (now : Nat) (keys : List Char) :
    (s.screenState = ScreenState.off →
      handleKeyboard s true true keys now = wakeScreen s now) ∧
    (s.screenState = ScreenState.on → s.currentPage = 0 →
      ((handleKeyboard s true true ['h'] now).1.currentPage = 2 ∧
        (handleKeyboard s true true ['h'] now).1.screenState = ScreenState.on)) ∧
    (s.screenState = ScreenState.off →
      ((handleKeyboard s true true ['h'] now).1.currentPage = s.currentPage ∧
        (handleKeyboard s true true ['h'] now).1.screenState = ScreenState.on)) := by
  have hesc : ¬('h'.toNat = 96 ∨ 'h' = '~' ∨ 'h'.toNat = 27) := by decide
  have hT : ¬ toUpperC 'h' = 'T' := by decide
  have hH : toUpperC 'h' = 'H' := by decide
  refine ⟨?_, ?_, ?_⟩
  · intro hoff
    unfold handleKeyboard
    rw [hoff]
    simp
  · intro hon hpage
    have hnot : ¬(s.screenState ≠ ScreenState.on) := by
      rw [hon]
      simp
    have hstep : handleKeyboard s true true ['h'] now =
        handleKey ({ s with lastActivityTime := now }, []) 'h' := by
      unfold handleKeyboard
      rw [if_pos rfl, if_pos rfl, if_neg hnot, wakeScreen_on_eq s now hon]
      rw [List.foldl_cons, List.foldl_nil]
    rw [hstep]
    unfold handleKey
    simp only []
    have hc0 : ({ s with lastActivityTime := now } : St).currentPage = 0 := hpage
    rw [if_neg hesc, if_pos hc0, if_neg hT, if_pos hH]
    exact ⟨rfl, hon⟩
  · intro hoff
    unfold handleKeyboard
    rw [hoff]
    simp [wakeScreen, hoff]

/-- C5 witness at the post-`setup` state (page Main, screen On) and at
the same state with the screen turned off. -/
theorem key_event_wake_before_nav_witness :
    ((initSt 20 50 101300 0).currentPage = 0 ∧
      (initSt 20 50 101300 0).screenState = ScreenState.on) ∧
    ((handleKeyboard (initSt 20 50 101300 0) true true ['h'] 5).1.currentPage = 2 ∧
      (handleKeyboard (initSt 20 50 101300 0) true true ['h'] 5).1.screenState =
        ScreenState.on) ∧
    (handleKeyboard { initSt 20 50 101300 0 with screenState := ScreenState.off }
        true true ['h'] 5).1.currentPage =
      { initSt 20 50 101300 0 with screenState := ScreenState.off }.currentPage ∧
    (handleKeyboard { initSt 20 50 101300 0 with screenState := ScreenState.off }
        true true ['h'] 5).1.screenState = ScreenState.on :=
  ⟨⟨rfl, rfl⟩,
   (key_event_wake_before_nav (initSt 20 50 101300 0) 5 ['h']).2.1 rfl rfl,
   ((key_event_wake_before_nav { initSt 20 50 101300 0 with screenState := ScreenState.off }
      5 ['h']).2.2 rfl).1,
   ((key_event_wake_before_nav { initSt 20 50 101300 0 with screenState := ScreenState.off }
      5 ['h']).2.2 rfl).2⟩

/-- C9: keyboard handling keeps the settings cursor and the
screen-timeout option in {0,1,2}, so the timeout-table lookup index
`screenTimeoutOption.toNat` is always inside the 3-element
`screenTimeoutValues` table. -/
theorem settings_indices_in_bounds (s : St) (isChange isPressed : Bool) (keys : List Char)
    (now : Nat)
    (h1 : 0 ≤ s.settingsSelection ∧ s.settingsSelection ≤ 2)
    (h2 : 0 ≤ s.screenTimeoutOption ∧ s.screenTimeoutOption ≤ 2) :
    (0 ≤ (handleKeyboard s isChange isPressed keys now).1.settingsSelection ∧
      (handleKeyboard s isChange isPressed keys now).1.settingsSelection ≤ 2) ∧
    (0 ≤ (handleKeyboard s isChange isPressed keys now).1.screenTimeoutOption ∧
      (handleKeyboard s isChange isPressed keys now).1.screenTimeoutOption ≤ 2) ∧
    (handleKeyboard s isChange isPressed keys now).1.screenTimeoutOption.toNat <
      screenTimeoutValues.length := by
  have main :
      (0 ≤ (handleKeyboard s isChange isPressed keys now).1.settingsSelection ∧
        (handleKeyboard s isChange isPressed keys now).1.settingsSelection ≤ 2) ∧
      (0 ≤ (handleKeyboard s isChange isPressed keys now).1.screenTimeoutOption ∧
        (handleKeyboard s isChange isPressed keys now).1.screenTimeoutOption ≤ 2) := by
    obtain ⟨e1, e2⟩ := wakeScreen_sel_opt s now
    unfold handleKeyboard
    split_ifs with hc hp hw
    · rw [e1, e2]
      exact ⟨h1, h2⟩
    · apply foldl_handleKey_bounds
      · rw [e1]
        exact h1
      · rw [e2]
        exact h2
    · exact ⟨h1, h2⟩
    · exact ⟨h1, h2⟩
  refine ⟨main.1, main.2, ?_⟩
  have := main.2
  simp only [screenTimeoutValues, List.length_cons, List.length_nil]
  omega

/-- C9 witness at the post-`setup` state with a settings key sequence. -/
theorem settings_indices_in_bounds_witness :
    ((0 ≤ (initSt 20 50 101300 0).settingsSelection ∧
        (initSt 20 50 101300 0).settingsSelection ≤ 2) ∧
      (0 ≤ (initSt 20 50 101300 0).screenTimeoutOption ∧
        (initSt 20 50 101300 0).screenTimeoutOption ≤ 2)) ∧
    ((0 ≤ (handleKeyboard (initSt 20 50 101300 0) true true ['.', '/'] 5).1.settingsSelection ∧
        (handleKeyboard (initSt 20 50 101300 0) true true
          ['.', '/'] 5).1.settingsSelection ≤ 2) ∧
      (0 ≤ (handleKeyboard (initSt 20 50 101300 0) true true
          ['.', '/'] 5).1.screenTimeoutOption ∧
        (handleKeyboard (initSt 20 50 101300 0) true true
          ['.', '/'] 5).1.screenTimeoutOption ≤ 2) ∧
      (handleKeyboard (initSt 20 50 101300 0) true true
          ['.', '/'] 5).1.screenTimeoutOption.toNat < screenTimeoutValues.length) :=
  ⟨⟨⟨by decide, by decide⟩, ⟨by decide, by decide⟩⟩,
   settings_indices_in_bounds (initSt 20 50 101300 0) true true ['.', '/'] 5
     ⟨by decide, by decide⟩ ⟨by decide, by decide⟩⟩

/-! ### Screen-timeout lemmas -/

theorem updateScreenTimeout_alwaysOn (s : St) (now : Nat) (h : s.screenTimeoutOption = 2) :
    updateScreenTimeout s now = (s, []) := by
  unfold updateScreenTimeout
  rw [h]
  rfl

theorem updateScreenTimeout_on_zero (s : St) (now : Nat) (hact : s.lastActivityTime = now) :
    updateScreenTimeout s now = (s, []) := by
  unfold updateScreenTimeout
  simp only []
  by_cases h0 : (screenTimeoutValues.get? s.screenTimeoutOption.toNat).getD 0 = 0
  · rw [if_pos h0]
  · rw [if_neg h0]
    have hcond : ¬(s.screenState = ScreenState.on ∧
        (screenTimeoutValues.get? s.screenTimeoutOption.toNat).getD 0 ≤
          elapsedMs now s.lastActivityTime) := by
      rw [hact, elapsedMs_self]
      rintro ⟨-, hle⟩
      exact h0 (Nat.le_zero.mp hle)
    rw [if_neg hcond]

theorem updateScreenTimeout_off (s : St) (now : Nat) (h : s.screenState = ScreenState.off) :
    updateScreenTimeout s now = (s, []) := by
  unfold updateScreenTimeout
  simp only []
  by_cases h0 : (screenTimeoutValues.get? s.screenTimeoutOption.toNat).getD 0 = 0
  · rw [if_pos h0]
  · rw [if_neg h0]
    have hcond : ¬(s.screenState = ScreenState.on ∧
        (screenTimeoutValues.get? s.screenTimeoutOption.toNat).getD 0 ≤
          elapsedMs now s.lastActivityTime) := by
      rintro ⟨h1, -⟩
      rw [h] at h1
      exact absurd h1 (by decide)
    rw [if_neg hcond]

theorem handleKeyboard_no_event (s : St) (isChange isPressed : Bool) (keys : List Char)
    (now : Nat) (h : ¬(isChange = true ∧ isPressed = true)) :
    handleKeyboard s isChange isPressed keys now = (s, []) := by
  unfold handleKeyboard
  cases isChange with
  | false => simp
  | true =>
      cases isPressed with
      | false => simp
      | true => exact absurd ⟨rfl, rfl⟩ h

/-! ### Projection forms of the preservation lemmas -/

theorem displaySection_screenState (s4 : St) (inp : LoopInput) :
    (displaySection s4 inp).1.screenState = s4.screenState :=
  congrArg Prod.fst (powerView_displaySection s4 inp)

theorem displaySection_brightness (s4 : St) (inp : LoopInput) :
    (displaySection s4 inp).1.brightness = s4.brightness :=
  congrArg (fun t => t.2.1) (powerView_displaySection s4 inp)

theorem displaySection_temperature (s4 : St) (inp : LoopInput) :
    (displaySection s4 inp).1.temperature = s4.temperature :=
  congrArg (fun t => t.2.2.1) (powerView_displaySection s4 inp)

theorem displaySection_humidity (s4 : St) (inp : LoopInput) :
    (displaySection s4 inp).1.humidity = s4.humidity :=
  congrArg (fun t => t.2.2.2.1) (powerView_displaySection s4 inp)

theorem displaySection_pressure (s4 : St) (inp : LoopInput) :
    (displaySection s4 inp).1.pressure = s4.pressure :=
  congrArg (fun t => t.2.2.2.2) (powerView_displaySection s4 inp)

theorem updateHistory_screenState (s : St) (now : Nat) :
    (updateHistory s now).screenState = s.screenState :=
  congrArg Prod.fst (powerView_updateHistory s now)

theorem updateHistory_brightness (s : St) (now : Nat) :
    (updateHistory s now).brightness = s.brightness :=
  congrArg (fun t => t.2.1) (powerView_updateHistory s now)

theorem updateHistory_temperature (s : St) (now : Nat) :
    (updateHistory s now).temperature = s.temperature :=
  congrArg (fun t => t.2.2.1) (powerView_updateHistory s now)

theorem updateHistory_humidity (s : St) (now : Nat) :
    (updateHistory s now).humidity = s.humidity :=
  congrArg (fun t => t.2.2.2.1) (powerView_updateHistory s now)

theorem updateHistory_pressure (s : St) (now : Nat) :
    (updateHistory s now).pressure = s.pressure :=
  congrArg (fun t => t.2.2.2.2) (powerView_updateHistory s now)

theorem displaySection_off (s4 : St) (inp : LoopInput)
    (h : s4.screenState = ScreenState.off) :
    displaySection s4 inp = (s4, []) := by
  unfold displaySection
  simp only []
  rw [if_neg (fun hne => hne h)]

/-- C6: when the screen-timeout option is Always-On (index 2), the
timeout check is a no-op, and a full loop iteration never transitions
the Screen Power State from On to Off. -/
theorem always_on_never_off (s : St) (inp : LoopInput)
    (hopt : s.screenTimeoutOption = 2) (hon : s.screenState = ScreenState.on) :
    (updateScreenTimeout s inp.now).1 = s ∧
    (loopStep s inp).1.screenState = ScreenState.on := by
  refine ⟨by rw [updateScreenTimeout_alwaysOn s inp.now hopt], ?_⟩
  have hK : (handleKeyboard s inp.isChange inp.isPressed inp.keys inp.now).1.screenState =
      ScreenState.on ∧
      (updateScreenTimeout
        (handleKeyboard s inp.isChange inp.isPressed inp.keys inp.now).1
        inp.now).1.screenState = ScreenState.on := by
    unfold handleKeyboard
    split_ifs with hc hp hw
    · exact absurd hon hw
    · have e := foldl_handleKey_keeps inp.keys (wakeScreen s inp.now)
      have es : (inp.keys.foldl handleKey (wakeScreen s inp.now)).1.screenState =
          ScreenState.on := by
        rw [e.2, wakeScreen_on_eq s inp.now hon]
        exact hon
      have ea : (inp.keys.foldl handleKey (wakeScreen s inp.now)).1.lastActivityTime =
          inp.now := by
        rw [e.1, wakeScreen_on_eq s inp.now hon]
      refine ⟨es, ?_⟩
      rw [updateScreenTimeout_on_zero _ inp.now ea]
      exact es
    · refine ⟨hon, ?_⟩
      show (updateScreenTimeout s inp.now).1.screenState = ScreenState.on
      rw [updateScreenTimeout_alwaysOn s inp.now hopt]
      exact hon
    · refine ⟨hon, ?_⟩
      show (updateScreenTimeout s inp.now).1.screenState = ScreenState.on
      rw [updateScreenTimeout_alwaysOn s inp.now hopt]
      exact hon
  unfold loopStep
  simp only []
  rw [displaySection_screenState, updateHistory_screenState]
  exact hK.2

/-- C6 witness at the post-`setup` state (Always-On default) with a
quiet loop iteration. -/
theorem always_on_never_off_witness :
    ((initSt 20 50 101300 0).screenTimeoutOption = 2 ∧
      (initSt 20 50 101300 0).screenState = ScreenState.on) ∧
    ((updateScreenTimeout (initSt 20 50 101300 0)
        (LoopInput.mk 20000 false false [] 20 50 101300 90 false).now).1 =
      initSt 20 50 101300 0 ∧
     (loopStep (initSt 20 50 101300 0)
        (LoopInput.mk 20000 false false [] 20 50 101300 90 false)).1.screenState =
      ScreenState.on) :=
  ⟨⟨rfl, rfl⟩,
   always_on_never_off (initSt 20 50 101300 0)
     (LoopInput.mk 20000 false false [] 20 50 101300 90 false) rfl rfl⟩

/-- C7: in a loop iteration that starts with the screen Off and sees no
key event, no draw or brightness operation is issued and the screen
stays Off with the backlight unchanged; if the screen is On after the
iteration, a key event must have occurred (wake-on-key is the only way
back On). -/
theorem screen_off_no_draw (s : St) (inp : LoopInput)
    (hoff : s.screenState = ScreenState.off) :
    (¬(inp.isChange = true ∧ inp.isPressed = true) →
      (loopStep s inp).2 = [] ∧
      (loopStep s inp).1.screenState = ScreenState.off ∧
      (loopStep s inp).1.brightness = s.brightness) ∧
    ((loopStep s inp).1.screenState = ScreenState.on →
      inp.isChange = true ∧ inp.isPressed = true) := by
  have partA : ¬(inp.isChange = true ∧ inp.isPressed = true) →
      (loopStep s inp).2 = [] ∧
      (loopStep s inp).1.screenState = ScreenState.off ∧
      (loopStep s inp).1.brightness = s.brightness := by
    intro hnk
    have hkb := handleKeyboard_no_event s inp.isChange inp.isPressed inp.keys inp.now hnk
    have h4off : (updateHistory { s with temperature := inp.cTemp, humidity := inp.rhHumidity, pressure := inp.rawPressure / 100 } inp.now).screenState = ScreenState.off := by
      rw [updateHistory_screenState]
      exact hoff
    unfold loopStep
    simp only []
    rw [hkb]
    simp only []
    rw [updateScreenTimeout_off s inp.now hoff]
    simp only []
    rw [displaySection_off _ inp h4off]
    refine ⟨rfl, ?_, ?_⟩
    · exact h4off
    · rw [updateHistory_brightness]
  refine ⟨partA, ?_⟩
  intro hOn
  by_contra hnk
  have hcontra := (partA hnk).2.1
  rw [hOn] at hcontra
  exact absurd hcontra (by decide)

/-- C7 witness: post-`setup` state with the screen off, quiet iteration. -/
theorem screen_off_no_draw_witness :
    ({ initSt 20 50 101300 0 with screenState := ScreenState.off }.screenState =
      ScreenState.off ∧
     ¬((false : Bool) = true ∧ (false : Bool) = true)) ∧
    ((loopStep { initSt 20 50 101300 0 with screenState := ScreenState.off }
        (LoopInput.mk 20000 false false [] 20 50 101300 90 false)).2 = [] ∧
     (loopStep { initSt 20 50 101300 0 with screenState := ScreenState.off }
        (LoopInput.mk 20000 false false [] 20 50 101300 90 false)).1.screenState =
      ScreenState.off ∧
     (loopStep { initSt 20 50 101300 0 with screenState := ScreenState.off }
        (LoopInput.mk 20000 false false [] 20 50 101300 90 false)).1.brightness =
      { initSt 20 50 101300 0 with screenState := ScreenState.off }.brightness) :=
  ⟨⟨rfl, by decide⟩,
   (screen_off_no_draw { initSt 20 50 101300 0 with screenState := ScreenState.off }
      (LoopInput.mk 20000 false false [] 20 50 101300 90 false) rfl).1 (by decide)⟩

/-! ### History cadence lemmas -/

theorem historyDue_elapsed (s : St) (t : Nat) (h1 : 1 ≤ s.historyCount) :
    historyDue s t ↔ historyInterval ≤ elapsedMs t s.lastHistoryUpdate := by
  unfold historyDue
  constructor
  · rintro (h | h)
    · exact h
    · omega
  · exact Or.inl

theorem updateHistory_last_due (s : St) (t : Nat) (h : historyDue s t) :
    (updateHistory s t).lastHistoryUpdate = t := by
  unfold updateHistory
  rw [if_pos h]

theorem updateHistory_eq_not_due (s : St) (t : Nat) (h : ¬ historyDue s t) :
    updateHistory s t = s := by
  unfold updateHistory
  rw [if_neg h]

theorem updateHistory_count_ge1 (s : St) (t : Nat) (h : 1 ≤ s.historyCount) :
    1 ≤ (updateHistory s t).historyCount := by
  unfold updateHistory
  split
  · simp only []
    split <;> omega
  · exact h

theorem histGap_aux (ts : List Nat) : ∀ s : St, 1 ≤ s.historyCount →
    headLinkOk s.lastHistoryUpdate ts → stepGapsOk ts = true →
    List.Chain' (fun a b => a + historyInterval ≤ b)
      (s.lastHistoryUpdate :: histAppendTimes s ts) := by
  induction ts with
  | nil =>
      intro s _ _ _
      simp [histAppendTimes]
  | cons t ts ih =>
      intro s h1 hh hc
      simp only [headLinkOk] at hh
      obtain ⟨hle, hlt⟩ := hh
      have hel : elapsedMs t s.lastHistoryUpdate = t - s.lastHistoryUpdate :=
        elapsedMs_eq t s.lastHistoryUpdate hle hlt
      have hc' : stepGapsOk ts = true := by
        cases ts with
        | nil => rfl
        | cons t2 ts2 =>
            simp only [stepGapsOk, Bool.and_eq_true] at hc
            exact hc.2
      simp only [histAppendTimes]
      by_cases hd : historyDue s t
      · rw [if_pos hd]
        have hgap : s.lastHistoryUpdate + historyInterval ≤ t := by
          rcases hd with h | h
          · rw [hel] at h
            omega
          · omega
        rw [List.chain'_cons]
        refine ⟨hgap, ?_⟩
        have hh' : headLinkOk (updateHistory s t).lastHistoryUpdate ts := by
          rw [updateHistory_last_due s t hd]
          cases ts with
          | nil => exact trivial
          | cons t2 ts2 =>
              simp only [stepGapsOk, Bool.and_eq_true, decide_eq_true_eq] at hc
              refine ⟨hc.1.1, ?_⟩
              have := hc.1.2
              unfold U32 historyInterval at *
              omega
        have hrec := ih (updateHistory s t) (updateHistory_count_ge1 s t h1) hh' hc'
        rw [updateHistory_last_due s t hd] at hrec
        exact hrec
      · rw [if_neg hd]
        rw [updateHistory_eq_not_due s t hd]
        apply ih s h1 ?_ hc'
        have hnd : elapsedMs t s.lastHistoryUpdate < historyInterval := by
          unfold historyDue at hd
          push_neg at hd
          exact hd.1
        rw [hel] at hnd
        cases ts with
        | nil => exact trivial
        | cons t2 ts2 =>
            simp only [stepGapsOk, Bool.and_eq_true, decide_eq_true_eq] at hc
            refine ⟨le_trans hle hc.1.1, ?_⟩
            have h1' := hc.1.1
            have h2' := hc.1.2
            unfold U32 historyInterval at *
            omega

theorem timesSane_head (prev : Nat) (ts : List Nat) (h : timesSane prev ts = true) :
    headLinkOk prev ts := by
  cases ts with
  | nil => exact trivial
  | cons t ts2 =>
      simp only [timesSane, Bool.and_eq_true, decide_eq_true_eq] at h
      refine ⟨h.1.1, ?_⟩
      have := h.1.2
      unfold U32 historyInterval at *
      omega

theorem timesSane_steps (prev : Nat) (ts : List Nat) (h : timesSane prev ts = true) :
    stepGapsOk ts = true := by
  induction ts generalizing prev with
  | nil => rfl
  | cons t ts2 ih =>
      simp only [timesSane, Bool.and_eq_true] at h
      cases ts2 with
      | nil => rfl
      | cons t2 ts3 =>
          have h2 := h.2
          simp only [timesSane, Bool.and_eq_true] at h2
          simp only [stepGapsOk, Bool.and_eq_true]
          exact ⟨h2.1, ih t h.2⟩

/-- C8: with at least one stored sample, the history append is gated
purely by elapsed time (`historyDue` is exactly the 60 s threshold
check); over any sane iteration-time trace, consecutive appends —
including relative to the previously stored update time — are at least
`historyInterval` (60 s) apart; and sensor values are taken over by the
loop state on every iteration regardless of whether an append happens. -/
theorem history_append_time_gated (s : St) (ts : List Nat) (t : Nat) (inp : LoopInput)
    (h1 : 1 ≤ s.historyCount) (hs : timesSane s.lastHistoryUpdate ts = true) :
    (historyDue s t ↔ historyInterval ≤ elapsedMs t s.lastHistoryUpdate) ∧
    List.Chain' (fun a b => a + historyInterval ≤ b)
      (s.lastHistoryUpdate :: histAppendTimes s ts) ∧
    (loopStep s inp).1.temperature = inp.cTemp ∧
    (loopStep s inp).1.humidity = inp.rhHumidity ∧
    (loopStep s inp).1.pressure = inp.rawPressure / 100 := by
  refine ⟨historyDue_elapsed s t h1, ?_, ?_, ?_, ?_⟩
  · exact histGap_aux ts s h1 (timesSane_head _ _ hs) (timesSane_steps _ _ hs)
  · unfold loopStep
    simp only []
    rw [displaySection_temperature, updateHistory_temperature]
  · unfold loopStep
    simp only []
    rw [displaySection_humidity, updateHistory_humidity]
  · unfold loopStep
    simp only []
    rw [displaySection_pressure, updateHistory_pressure]

/-- C8 witness: post-`setup` state, three iteration times one of which
crosses the threshold. -/
theorem history_append_time_gated_witness :
    (1 ≤ (initSt 20 50 101300 0).historyCount ∧
      timesSane (initSt 20 50 101300 0).lastHistoryUpdate [30000, 70000, 200000] = true) ∧
    ((historyDue (initSt 20 50 101300 0) 45000 ↔
        historyInterval ≤ elapsedMs 45000 (initSt 20 50 101300 0).lastHistoryUpdate) ∧
      List.Chain' (fun a b => a + historyInterval ≤ b)
        ((initSt 20 50 101300 0).lastHistoryUpdate ::
          histAppendTimes (initSt 20 50 101300 0) [30000, 70000, 200000]) ∧
      (loopStep (initSt 20 50 101300 0)
        (LoopInput.mk 20000 false false [] 21 51 101400 90 false)).1.temperature = 21 ∧
      (loopStep (initSt 20 50 101300 0)
        (LoopInput.mk 20000 false false [] 21 51 101400 90 false)).1.humidity = 51 ∧
      (loopStep (initSt 20 50 101300 0)
        (LoopInput.mk 20000 false false [] 21 51 101400 90 false)).1.pressure =
        101400 / 100) :=
  ⟨⟨by decide, by decide⟩,
   history_append_time_gated (initSt 20 50 101300 0) [30000, 70000, 200000] 45000
     (LoopInput.mk 20000 false false [] 21 51 101400 90 false) (by decide) (by decide)⟩

end CardEnv
